import Mathlib

/-!
Verification of the eli5 backend pipeline (Convex functions in
`convex/papers.ts`, `convex/demos.ts`, `convex/sandbox.ts`, `convex/users.ts`)
against its natural-language specification.

The code is shallowly embedded: each Convex query/mutation/action handler
becomes a pure Lean function whose extra arguments are the outcomes of the
external collaborator calls it performs (identity provider, blob storage,
analysis model, generative model, Daytona sandbox provider).  Database effects
are made explicit: a handler returns the list of record patches it issued, the
records it inserted, and the tasks it scheduled.  Thrown JS exceptions are
modelled with `Except String`.
-/

deriving instance DecidableEq for Except

namespace Eli5

/-! ## Data model (from `convex/schema.ts`) -/

/-- Paper status union: `uploading | processing | ready | error`. -/
inductive PStatus where
  | uploading
  | processing
  | ready
  | error
  deriving DecidableEq, Repr

/-- Demo status union: `generating | executing | ready | failed`. -/
inductive DStatus where
  | generating
  | executing
  | ready
  | failed
  deriving DecidableEq, Repr

/-- `codeType` union: `html | react`. -/
inductive CodeType where
  | html
  | react
  deriving DecidableEq, Repr

/-- `papers.metadata` object. -/
structure PaperMetadata where
  authors : Option (List String)
  abstract : Option String
  keywords : Option (List String)
  deriving DecidableEq, Repr

/-- A record of the `papers` table.  Ids of other tables are modelled as `Nat`. -/
structure Paper where
  userId : Nat
  title : String
  fileName : String
  fileStorageId : Nat
  pdfUrl : Option String
  status : PStatus
  extractedContent : Option String
  metadata : Option PaperMetadata
  deriving DecidableEq, Repr

/-- `demos.executionResults` object. -/
structure ExecutionResults where
  sandboxId : String
  outputHtml : Option String
  screenshot : Option String
  logs : Option (List String)
  errors : Option (List String)
  deriving DecidableEq, Repr

/-- A record of the `demos` table. -/
structure Demo where
  paperId : Nat
  userId : Nat
  concept : String
  status : DStatus
  generatedCode : String
  codeType : CodeType
  executionResults : Option ExecutionResults
  demoFileStorageId : Option Nat
  deriving DecidableEq, Repr

/-! ## Users (`convex/users.ts`) -/

/-- The identity returned by `ctx.auth.getUserIdentity()` (WorkOS). -/
structure Identity where
  subject : String
  email : Option String
  name : Option String
  organizationId : Option String
  deriving DecidableEq, Repr

/-- A record of the `users` table, together with its id. -/
structure UserRec where
  id : Nat
  workosId : String
  email : String
  name : String
  organizationId : Option String
  deriving DecidableEq, Repr

/-- The `users` table: rows in insertion order plus the id the next `insert`
will allocate. -/
structure UsersTable where
  rows : List UserRec
  nextId : Nat
  deriving DecidableEq, Repr

/-- `ctx.db.query('users').withIndex('by_workosId', …).unique()`: `none` when no
row matches, the row when exactly one matches, and a thrown error when several
match. -/
def uniqueByWorkosId (subject : String) (t : UsersTable) :
    Except String (Option UserRec) :=
  match t.rows.filter (fun u => u.workosId == subject) with
  | [] => .ok none
  | [u] => .ok (some u)
  | _ => .error "unique: not unique"

/-- `ensureUser` mutation handler: returns the existing user id for the
identity subject, or inserts a fresh user row.  Result is the returned id and
the users table after the call. -/
def ensureUser (identity : Option Identity) (t : UsersTable) :
    Except String (Nat × UsersTable) :=
  match identity with
  | none => .error "Not authenticated"
  | some idn =>
    match uniqueByWorkosId idn.subject t with
    | .error e => .error e
    | .ok (some u) => .ok (u.id, t)
    | .ok none =>
      let newUser : UserRec :=
        ⟨t.nextId, idn.subject, idn.email.getD "", idn.name.getD "Unknown User",
          idn.organizationId⟩
      .ok (t.nextId, ⟨t.rows ++ [newUser], t.nextId + 1⟩)

/-! ## Read queries (`papers.getPaper`, `demos.getDemo`, `demos.listPaperDemos`)

Each query first resolves the caller to a user id (`getUserFromAuth`); the
claims quantify over authenticated callers, so the resolved id `uid` is an
argument.  `ctx.storage.getUrl` is the collaborator argument `urlOf`. -/

/-- `papers.getPaper` handler after `getUserFromAuth` resolved to `uid`.
The pair is the paper spread together with the computed `pdfUrl` field. -/
def getPaper (uid : Nat) (paper : Option Paper) (urlOf : Nat → Option String) :
    Option (Paper × Option String) :=
  match paper with
  | none => none
  | some p =>
    if p.userId = uid then some (p, urlOf p.fileStorageId) else none

/-- `demos.getDemo` handler after `getUserFromAuth` resolved to `uid`.
The pair is the demo spread together with the computed `demoUrl` field. -/
def getDemo (uid : Nat) (demo : Option Demo) (urlOf : Nat → Option String) :
    Option (Demo × Option String) :=
  match demo with
  | none => none
  | some d =>
    if d.userId = uid then
      some (d, match d.demoFileStorageId with
        | some f => urlOf f
        | none => none)
    else none

/-- `demos.listPaperDemos` handler: index lookup by `paperId` in descending
creation order (the table is kept in insertion order, so `reverse`), then the
owner filter and the `demoUrl` map. -/
def listPaperDemos (uid pid : Nat) (table : List Demo)
    (urlOf : Nat → Option String) : List (Demo × Option String) :=
  let demos := (table.filter (fun d => d.paperId == pid)).reverse
  (demos.filter (fun d => d.userId == uid)).map
    (fun d => (d, match d.demoFileStorageId with
      | some f => urlOf f
      | none => none))

/-! ## Markdown-fence stripping (`demos.generateDemo`, lines 1599-1605)

```
let htmlCode = result.text.trim();
if (htmlCode.startsWith('```'))
  htmlCode = htmlCode.replace(/```html\n?/g, '').replace(/```\n?/g, '');
```

`String.replace` with a `g` regex and empty replacement removes the
non-overlapping matches scanning left to right; scanning resumes after each
match.  `stripOccF pat fuel l` removes every occurrence of `pat` followed by an
optional newline; the fuel equals the input length at the top-level call and is
only there to make the recursion structural. -/

/-- The backtick character (0x60). -/
def btick : Char := Char.ofNat 96

/-- Drop one leading newline if present (the `\n?` part of the regexes). -/
def dropNl : List Char → List Char
  | c :: rest => if c = '\n' then rest else c :: rest
  | [] => []

/-- Remove every occurrence of `pat ++ optional '\n'`, scanning left to right
(the semantics of `replace(/pat\n?/g, '')` for a literal pattern). -/
def stripOccF (pat : List Char) : Nat → List Char → List Char
  | 0, l => l
  | _ + 1, [] => []
  | fuel + 1, c :: cs =>
    if pat.isPrefixOf (c :: cs) then
      stripOccF pat fuel (dropNl ((c :: cs).drop pat.length))
    else
      c :: stripOccF pat fuel cs

/-- `replace(/pat\n?/g, '')` on a char list. -/
def stripOcc (pat l : List Char) : List Char := stripOccF pat l.length l

/-- JS `String.prototype.trim`: drop whitespace at both ends. -/
def jsTrim (l : List Char) : List Char :=
  ((l.dropWhile Char.isWhitespace).reverse.dropWhile Char.isWhitespace).reverse

/-- The fence-stripping block of `generateDemo` on a char list. -/
def cleanChars (l : List Char) : List Char :=
  let t := jsTrim l
  if ("```".data).isPrefixOf t then
    stripOcc ("```".data) (stripOcc ("```html".data) t)
  else t

/-- The cleaned generated code `generateDemo` persists for a model response. -/
def cleanHtml (s : String) : String := ⟨cleanChars s.data⟩

/-- The bare fence pattern as an explicit char list (`"```".data`). -/
def fence3L : List Char := [btick, btick, btick]

/-- The html-labelled fence pattern as an explicit char list (`"```html".data`). -/
def fence7L : List Char := [btick, btick, btick, 'h', 't', 'm', 'l']

/-! ## Demo mutations (`demos.createDemo`, `demos.updateDemo`) -/

/-- The record `generateDemo` inserts through `createDemo`: status
`generating`, empty `generatedCode`, `codeType` `html`, no execution results. -/
def initialDemo (pid uid : Nat) (concept : String) : Demo :=
  ⟨pid, uid, concept, .generating, "", .html, none, none⟩

/-- Arguments of the `updateDemo` internal mutation (all optional). -/
structure DemoUpdate where
  status : Option DStatus
  generatedCode : Option String
  executionResults : Option ExecutionResults
  demoFileStorageId : Option Nat
  deriving DecidableEq, Repr

/-- `updateDemo` handler: `ctx.db.patch` with exactly the provided fields;
absent fields are left untouched. -/
def updateDemo (d : Demo) (u : DemoUpdate) : Demo :=
  { d with
    status := u.status.getD d.status
    generatedCode := u.generatedCode.getD d.generatedCode
    executionResults :=
      match u.executionResults with
      | some e => some e
      | none => d.executionResults
    demoFileStorageId :=
      match u.demoFileStorageId with
      | some f => some f
      | none => d.demoFileStorageId }

/-! ## `demos.generateDemo` (action)

Collaborator outcomes become arguments: `currentUser` is the result of
`api.users.getCurrentUser` (resolved owner id), `paper` the result of
`getPaperInternal`, `model` the outcome of the `generateText` call, and `did`
the demo id allocated by `createDemo` when the insert is reached. -/

/-- Effects of one `generateDemo` call: the returned value (or thrown error),
the final state of the demo record it inserted (`none` when no record was
inserted), and the demo ids passed to `scheduler.runAfter(0, executeInSandbox)`. -/
structure GenOutcome where
  result : Except String Nat
  demo : Option Demo
  scheduled : List Nat
  deriving DecidableEq, Repr

/-- `generateDemo` handler.  The catch block patches the demo to `failed` with
an empty sandbox id and the error message, schedules nothing, and swallows the
exception (the action still returns the demo id). -/
def generateDemo (currentUser : Option Nat) (paper : Option Paper)
    (pid did : Nat) (concept : String) (model : Except String String) :
    GenOutcome :=
  match currentUser with
  | none => ⟨.error "Not authenticated", none, []⟩
  | some uid =>
    match paper with
    | none => ⟨.error "Paper not found", none, []⟩
    | some p =>
      if p.userId = uid then
        let d0 := initialDemo pid uid concept
        match model with
        | .ok text =>
          let code := cleanHtml text
          ⟨.ok did, some (updateDemo d0 ⟨some .executing, some code, none, none⟩),
            [did]⟩
        | .error e =>
          ⟨.ok did,
            some (updateDemo d0
              ⟨some .failed, none, some ⟨"", none, none, none, some [e]⟩, none⟩),
            []⟩
      else ⟨.error "Unauthorized", none, []⟩

/-! ## `sandbox.executeInSandbox` (Node action, `convex/sandbox.ts`)

Arguments are the outcomes of the external calls in program order: the
`getDemoInternal` lookup, `daytona.create` (yielding the sandbox id),
the two `sandbox.process.executeCommand` calls (file write, server start),
the `fetch` of the served page, `ctx.storage.store`, and `sandbox.delete`. -/

/-- The observable parts of a `fetch` `Response`. -/
structure FetchResp where
  ok : Bool
  status : Nat
  statusText : String
  body : String
  deriving DecidableEq, Repr

/-- Effects of one `executeInSandbox` call: the action result (`.error` when
the exception is re-thrown), whether `daytona.create` returned a sandbox,
how many `sandbox.delete` calls were made, the `updateDemo` patches issued in
order, and the blob stored (if any). -/
structure ExecOutcome where
  result : Except String Unit
  createOk : Bool
  deleteCalls : Nat
  updates : List DemoUpdate
  stored : Option Nat
  deriving DecidableEq, Repr

/-- The patch issued by the catch block of `executeInSandbox`: status `failed`,
`sandboxId` always the empty string, the error message as a one-element error
list. -/
def sandboxFailedUpdate (e : String) : DemoUpdate :=
  ⟨some .failed, none, some ⟨"", none, none, none, some [e]⟩, none⟩

/-- `executeInSandbox` handler.  Note: `sandbox.delete()` is only reached at
the end of the `try` block, after the `ready` patch; every failure jumps to the
catch block, which patches `failed` and re-throws without deleting. -/
def executeInSandbox (demo : Option Demo) (createR : Except String String)
    (writeR serverR : Except String Unit) (fetchR : Except String FetchResp)
    (storeR : Except String Nat) (deleteR : Except String Unit) : ExecOutcome :=
  match demo with
  | none => ⟨.error "Demo not found", false, 0, [], none⟩
  | some _ =>
    match createR with
    | .error e => ⟨.error e, false, 0, [sandboxFailedUpdate e], none⟩
    | .ok sid =>
      match writeR with
      | .error e => ⟨.error e, true, 0, [sandboxFailedUpdate e], none⟩
      | .ok _ =>
        match serverR with
        | .error e => ⟨.error e, true, 0, [sandboxFailedUpdate e], none⟩
        | .ok _ =>
          match fetchR with
          | .error e => ⟨.error e, true, 0, [sandboxFailedUpdate e], none⟩
          | .ok resp =>
            if resp.ok then
              match storeR with
              | .error e => ⟨.error e, true, 0, [sandboxFailedUpdate e], none⟩
              | .ok blobId =>
                let readyUpd : DemoUpdate :=
                  ⟨some .ready, none,
                    some ⟨sid, some resp.body, none, none, none⟩, some blobId⟩
                match deleteR with
                | .ok _ => ⟨.ok (), true, 1, [readyUpd], some blobId⟩
                | .error e =>
                  ⟨.error e, true, 1, [readyUpd, sandboxFailedUpdate e],
                    some blobId⟩
            else
              let e := "Failed to fetch demo: " ++ toString resp.status ++ " "
                ++ resp.statusText
              ⟨.error e, true, 0, [sandboxFailedUpdate e], none⟩

/-! ## JSON parsing (`JSON.parse`, used by `papers.extractPdfContent`)

`extractPdfContent` runs `result.text.match(/\x7b[\s\S]*\x7d/)` and
`JSON.parse` on the match.  The parser below embeds `JSON.parse`
(ECMA-404 grammar); numbers are kept as their lexemes, since the program never
uses a parsed number's value, only whether a field is a string / null /
something else.  The fuel argument makes the recursion structural; the
top-level call passes `length + 1`, which is ample because every
fuel-consuming recursive call follows the consumption of at least one input
character. -/

/-- A parsed JSON value. -/
inductive JVal where
  | jnull
  | jbool (b : Bool)
  | jnum (lexeme : String)
  | jstr (s : String)
  | jarr (elems : List JVal)
  | jobj (fields : List (String × JVal))

/-- JSON insignificant whitespace. -/
def isJsonWs (c : Char) : Bool := c == ' ' || c == '\t' || c == '\n' || c == '\r'

/-- Skip insignificant whitespace. -/
def skipWs (l : List Char) : List Char := l.dropWhile isJsonWs

/-- Value of one hex digit. -/
def hexDigit (c : Char) : Option Nat :=
  if '0' ≤ c ∧ c ≤ '9' then some (c.toNat - 48)
  else if 'a' ≤ c ∧ c ≤ 'f' then some (c.toNat - 87)
  else if 'A' ≤ c ∧ c ≤ 'F' then some (c.toNat - 55)
  else none

/-- Parse the remainder of a JSON string literal (after the opening quote):
returns the decoded characters and the input after the closing quote. -/
def parseStrChars : List Char → Option (List Char × List Char)
  | [] => none
  | '"' :: rest => some ([], rest)
  | '\\' :: rest =>
    match rest with
    | '"' :: r => (parseStrChars r).map (fun p => ('"' :: p.1, p.2))
    | '\\' :: r => (parseStrChars r).map (fun p => ('\\' :: p.1, p.2))
    | '/' :: r => (parseStrChars r).map (fun p => ('/' :: p.1, p.2))
    | 'b' :: r => (parseStrChars r).map (fun p => (Char.ofNat 8 :: p.1, p.2))
    | 'f' :: r => (parseStrChars r).map (fun p => (Char.ofNat 12 :: p.1, p.2))
    | 'n' :: r => (parseStrChars r).map (fun p => ('\n' :: p.1, p.2))
    | 'r' :: r => (parseStrChars r).map (fun p => ('\r' :: p.1, p.2))
    | 't' :: r => (parseStrChars r).map (fun p => ('\t' :: p.1, p.2))
    | 'u' :: h1 :: h2 :: h3 :: h4 :: r =>
      match hexDigit h1, hexDigit h2, hexDigit h3, hexDigit h4 with
      | some a, some b, some c, some d =>
        (parseStrChars r).map
          (fun p => (Char.ofNat (((a * 16 + b) * 16 + c) * 16 + d) :: p.1, p.2))
      | _, _, _, _ => none
    | _ => none
  | c :: rest =>
    if c.toNat < 32 then none
    else (parseStrChars rest).map (fun p => (c :: p.1, p.2))

/-- Split off a maximal run of decimal digits. -/
def digitRun (l : List Char) : List Char × List Char :=
  (l.takeWhile Char.isDigit, l.dropWhile Char.isDigit)

/-- Parse the optional exponent part of a JSON number. -/
def parseExpPart (acc : List Char) (l : List Char) : Option (JVal × List Char) :=
  match l with
  | c :: r =>
    if c == 'e' || c == 'E' then
      let sr : List Char × List Char :=
        match r with
        | s :: r2 => if s == '+' || s == '-' then ([s], r2) else ([], r)
        | [] => ([], r)
      let dr := digitRun sr.2
      if dr.1 = [] then none
      else some (.jnum ⟨acc ++ c :: (sr.1 ++ dr.1)⟩, dr.2)
    else some (.jnum ⟨acc⟩, l)
  | [] => some (.jnum ⟨acc⟩, [])

/-- Parse the optional fraction part of a JSON number. -/
def parseFracPart (acc : List Char) (l : List Char) : Option (JVal × List Char) :=
  match l with
  | '.' :: r =>
    let dr := digitRun r
    if dr.1 = [] then none else parseExpPart (acc ++ '.' :: dr.1) dr.2
  | _ => parseExpPart acc l

/-- Parse a JSON number ('-'? int frac? exp?). -/
def parseNum (l : List Char) : Option (JVal × List Char) :=
  let sl : List Char × List Char :=
    match l with
    | '-' :: r => (['-'], r)
    | _ => ([], l)
  match sl.2 with
  | '0' :: r => parseFracPart (sl.1 ++ ['0']) r
  | c :: r =>
    if c.isDigit then
      let dr := digitRun r
      parseFracPart (sl.1 ++ c :: dr.1) dr.2
    else none
  | [] => none

mutual

/-- Parse one JSON value, skipping leading whitespace. -/
def parseVal : Nat → List Char → Option (JVal × List Char)
  | 0, _ => none
  | fuel + 1, l =>
    match skipWs l with
    | 'n' :: 'u' :: 'l' :: 'l' :: r => some (.jnull, r)
    | 't' :: 'r' :: 'u' :: 'e' :: r => some (.jbool true, r)
    | 'f' :: 'a' :: 'l' :: 's' :: 'e' :: r => some (.jbool false, r)
    | '"' :: r => (parseStrChars r).map (fun p => (.jstr ⟨p.1⟩, p.2))
    | '\x7b' :: r =>
      match skipWs r with
      | '\x7d' :: r2 => some (.jobj [], r2)
      | r1 =>
        match parseMember fuel r1 with
        | none => none
        | some (kv, r2) => parseObjRest fuel r2 [kv]
    | '[' :: r =>
      match skipWs r with
      | ']' :: r2 => some (.jarr [], r2)
      | r1 =>
        match parseVal fuel r1 with
        | none => none
        | some (v, r2) => parseArrRest fuel r2 [v]
    | l1 => parseNum l1

/-- Parse one `"key": value` object member (no leading whitespace). -/
def parseMember : Nat → List Char → Option ((String × JVal) × List Char)
  | 0, _ => none
  | fuel + 1, l =>
    match l with
    | '"' :: r =>
      match parseStrChars r with
      | none => none
      | some (k, r1) =>
        match skipWs r1 with
        | ':' :: r2 =>
          match parseVal fuel r2 with
          | none => none
          | some (v, r3) => some ((⟨k⟩, v), r3)
        | _ => none
    | _ => none

/-- Parse the rest of an object after at least one member (`acc` reversed). -/
def parseObjRest : Nat → List Char → List (String × JVal) →
    Option (JVal × List Char)
  | 0, _, _ => none
  | fuel + 1, l, acc =>
    match skipWs l with
    | '\x7d' :: r => some (.jobj acc.reverse, r)
    | ',' :: r =>
      match parseMember fuel (skipWs r) with
      | none => none
      | some (kv, r2) => parseObjRest fuel r2 (kv :: acc)
    | _ => none

/-- Parse the rest of an array after at least one element (`acc` reversed). -/
def parseArrRest : Nat → List Char → List JVal → Option (JVal × List Char)
  | 0, _, _ => none
  | fuel + 1, l, acc =>
    match skipWs l with
    | ']' :: r => some (.jarr acc.reverse, r)
    | ',' :: r =>
      match parseVal fuel (skipWs r) with
      | none => none
      | some (v, r2) => parseArrRest fuel r2 (v :: acc)
    | _ => none

end

/-- `JSON.parse` on a char list: one value, then only trailing whitespace. -/
def jsonParseChars (l : List Char) : Option JVal :=
  match parseVal (l.length + 1) l with
  | some (v, rest) => if skipWs rest = [] then some v else none
  | none => none

/-! ## Lenient analysis-response parsing (`papers.extractPdfContent`) -/

/-- `text.match(/\x7b[\s\S]*\x7d/)`: the substring from the first `\x7b` to the
last `\x7d` after it, when both exist. -/
def braceMatch (l : List Char) : Option (List Char) :=
  let rest := l.dropWhile (fun c => c != '\x7b')
  match rest with
  | [] => none
  | _ :: _ =>
    let revTail := rest.reverse.dropWhile (fun c => c != '\x7d')
    match revTail with
    | [] => none
    | _ :: _ => some revTail.reverse

/-- The `extractedData` object of `extractPdfContent`: `JSON.parse` of the
brace-delimited match when that parse succeeds, otherwise the fallback object
`\x7b content: text \x7d`. -/
def parseAnalysis (text : String) : JVal :=
  match braceMatch text.data with
  | some m =>
    match jsonParseChars m with
    | some v => v
    | none => .jobj [("content", .jstr text)]
  | none => .jobj [("content", .jstr text)]

/-- JS property access on a parsed JSON value (last duplicate key wins). -/
def jfield : JVal → String → Option JVal
  | .jobj fs, k => (fs.reverse.find? (fun kv => kv.1 == k)).map (fun kv => kv.2)
  | _, _ => none

/-- JS `s.split(',')` on a char list (`acc` holds the current field reversed). -/
def splitComma : List Char → List Char → List (List Char)
  | [], acc => [acc.reverse]
  | c :: rest, acc =>
    if c = ',' then acc.reverse :: splitComma rest []
    else splitComma rest (c :: acc)

/-- `s.split(',').map((x) => x.trim())`. -/
def splitTrim (s : String) : List String :=
  (splitComma s.data []).map (fun l => String.mk (jsTrim l))

/-- `extractedData.content ?? result.text`; a non-string non-null value fails
the `v.string()` validator of `updatePaper` and throws. -/
def contentField (data : JVal) (raw : String) : Except String String :=
  match jfield data "content" with
  | none => .ok raw
  | some .jnull => .ok raw
  | some (.jstr s) => .ok s
  | some _ => .error "validator: extractedContent must be a string"

/-- `extractedData.authors?.split(',').map(trim)`; `?.` passes null/undefined
through, any other non-string value throws (`split` is not a function). -/
def authorsField (data : JVal) : Except String (Option (List String)) :=
  match jfield data "authors" with
  | none => .ok none
  | some .jnull => .ok none
  | some (.jstr s) => .ok (some (splitTrim s))
  | some _ => .error "TypeError: split is not a function"

/-- `extractedData.abstract`; null or a non-string fails the
`v.optional(v.string())` validator. -/
def abstractField (data : JVal) : Except String (Option String) :=
  match jfield data "abstract" with
  | none => .ok none
  | some (.jstr s) => .ok (some s)
  | some _ => .error "validator: abstract must be a string"

/-- `extractedData.keywords?.split(',').map(trim)`. -/
def keywordsField (data : JVal) : Except String (Option (List String)) :=
  match jfield data "keywords" with
  | none => .ok none
  | some .jnull => .ok none
  | some (.jstr s) => .ok (some (splitTrim s))
  | some _ => .error "TypeError: split is not a function"

/-! ## `papers.updatePaper` and `papers.extractPdfContent` -/

/-- Arguments of the `updatePaper` internal mutation (all optional). -/
structure PaperUpdate where
  status : Option PStatus
  extractedContent : Option String
  metadata : Option PaperMetadata
  pdfUrl : Option String
  deriving DecidableEq, Repr

/-- `updatePaper` handler: `ctx.db.patch` with exactly the provided fields. -/
def updatePaper (p : Paper) (u : PaperUpdate) : Paper :=
  { p with
    status := u.status.getD p.status
    extractedContent :=
      match u.extractedContent with
      | some c => some c
      | none => p.extractedContent
    metadata :=
      match u.metadata with
      | some m => some m
      | none => p.metadata
    pdfUrl :=
      match u.pdfUrl with
      | some x => some x
      | none => p.pdfUrl }

/-- The patch issued by the catch block of `extractPdfContent`: only
`status: 'error'`. -/
def paperErrorUpdate : PaperUpdate := ⟨some .error, none, none, none⟩

/-- The single `updatePaper` call of the success path of `extractPdfContent`,
or the error thrown while building / validating its arguments. -/
def buildReadyUpdate (raw url : String) : Except String PaperUpdate :=
  let data := parseAnalysis raw
  match contentField data raw with
  | .error e => .error e
  | .ok content =>
    match authorsField data with
    | .error e => .error e
    | .ok authors =>
      match abstractField data with
      | .error e => .error e
      | .ok abs =>
        match keywordsField data with
        | .error e => .error e
        | .ok kws =>
          .ok ⟨some .ready, some content, some ⟨authors, abs, kws⟩, some url⟩

/-- Effects of one `extractPdfContent` call: the `updatePaper` patches issued
in order, and the tasks it schedules (it never schedules any retry). -/
structure ExtractOutcome where
  updates : List PaperUpdate
  scheduled : List Nat
  deriving DecidableEq, Repr

/-- `extractPdfContent` handler.  Arguments: the `getPaperInternal` lookup,
the `ctx.storage.getUrl` result, and the outcome of the `generateText`
analysis call (`.error` for a network or model failure).  Any exception is
caught and answered with the `status: 'error'` patch; the action never
re-throws and never schedules a retry. -/
def extractPdfContent (paper : Option Paper) (url : Option String)
    (analysis : Except String String) : ExtractOutcome :=
  match paper with
  | none => ⟨[paperErrorUpdate], []⟩
  | some _ =>
    match url with
    | none => ⟨[paperErrorUpdate], []⟩
    | some u =>
      match analysis with
      | .error _ => ⟨[paperErrorUpdate], []⟩
      | .ok text =>
        match buildReadyUpdate text u with
        | .ok upd => ⟨[upd], []⟩
        | .error _ => ⟨[paperErrorUpdate], []⟩

/-! ## Reachable demo records

The demo records one pipeline instance can produce: the `createDemo` insert,
then the patch `generateDemo` applies (success or failure of the model call),
then the patches of any `executeInSandbox` run.  The dispatcher schedules
`executeInSandbox` only after the `generating → executing` patch returned
(§5 of the spec), so the execution step starts from a record in `executing`. -/
inductive DemoReach (uid pid did : Nat) (p : Paper) (concept : String)
    (model : Except String String) : Demo → Prop where
  | created : DemoReach uid pid did p concept model (initialDemo pid uid concept)
  | generated (d : Demo) :
      (generateDemo (some uid) (some p) pid did concept model).demo = some d →
      DemoReach uid pid did p concept model d
  | executed (d : Demo) (cR : Except String String) (wR sR : Except String Unit)
      (fR : Except String FetchResp) (stR : Except String Nat)
      (dR : Except String Unit) :
      DemoReach uid pid did p concept model d →
      d.status = DStatus.executing →
      DemoReach uid pid did p concept model
        (((executeInSandbox (some d) cR wR sR fR stR dR).updates).foldl
          updateDemo d)

/-! ## Concrete records used by witnesses and counterexamples -/

/-- A demo record in `executing`, as seen by `executeInSandbox`. -/
def demoExec : Demo :=
  ⟨1, 0, "visualize gradient descent", .executing, "<!DOCTYPE html><p>x</p>",
    .html, none, none⟩

/-- A ready paper owned by user 0. -/
def paperMine : Paper :=
  ⟨0, "Attention Is All You Need", "paper.pdf", 3, none, .ready, some "text", none⟩

/-- The record left behind when the model call of `generateDemo` throws. -/
def demoFailedGen : Demo :=
  updateDemo (initialDemo 1 0 "attention")
    ⟨some .failed, none, some ⟨"", none, none, none, some ["model down"]⟩, none⟩

/-- The record left behind by the success path of `generateDemo`. -/
def demoExecOk : Demo :=
  updateDemo (initialDemo 1 0 "attention")
    ⟨some .executing, some (cleanHtml "<!DOCTYPE html><p>hi</p>"), none, none⟩

/-- An analysis response that is not itself JSON but embeds a JSON object. -/
def rawEmbedded : String :=
  "Here is the JSON: \x7b\"content\": \"inner\", \"authors\": \"A, B\"\x7d"

/-- A demo of paper 5 owned by user 0. -/
def demoMine : Demo := ⟨5, 0, "c", .ready, "<html></html>", .html, none, none⟩

/-- A demo of paper 5 owned by user 3. -/
def demoTheirs : Demo := ⟨5, 3, "c2", .ready, "<html></html>", .html, none, none⟩

/-! ## Theorems -/

/-- C2: when the referenced paper exists but is owned by another user,
`generateDemo` throws `Unauthorized`, inserts no demo record, modifies no
record, and schedules no sandbox execution. -/
theorem generateDemo_unauthorized_no_mutation (uid pid did : Nat) (p : Paper)
    (concept : String) (model : Except String String) (h : p.userId ≠ uid) :
    generateDemo (some uid) (some p) pid did concept model
      = ⟨.error "Unauthorized", none, []⟩ := by
  simp [generateDemo, h]

/-- Witness for C2 at a concrete foreign-owned paper. -/
theorem generateDemo_unauthorized_no_mutation_witness :
    generateDemo (some 0) (some ⟨1, "t", "f.pdf", 4, none, .ready, none, none⟩)
        1 2 "concept" (.ok "x") = ⟨.error "Unauthorized", none, []⟩ :=
  generateDemo_unauthorized_no_mutation 0 1 2 _ "concept" (.ok "x") (by decide)

/-- C9: `getPaper` and `getDemo` return `null` both for an absent record and
for a record owned by another user; neither case is an error, so the two are
indistinguishable to the caller. -/
theorem getPaper_getDemo_none_absent_or_foreign (uid : Nat)
    (urlOf : Nat → Option String) (p : Paper) (d : Demo)
    (hp : p.userId ≠ uid) (hd : d.userId ≠ uid) :
    getPaper uid none urlOf = none ∧ getDemo uid none urlOf = none ∧
    getPaper uid (some p) urlOf = none ∧ getDemo uid (some d) urlOf = none := by
  refine ⟨rfl, rfl, ?_, ?_⟩ <;> simp [getPaper, getDemo, hp, hd]

/-- Witness for C9 at concrete foreign-owned records. -/
theorem getPaper_getDemo_none_absent_or_foreign_witness :
    getPaper 0 (some ⟨7, "t", "f.pdf", 4, none, .ready, none, none⟩)
        (fun _ => none) = none ∧
    getDemo 0 (some ⟨1, 7, "c", .ready, "<p></p>", .html, none, none⟩)
        (fun _ => none) = none := by
  have h := getPaper_getDemo_none_absent_or_foreign 0 (fun _ => none)
    ⟨7, "t", "f.pdf", 4, none, .ready, none, none⟩
    ⟨1, 7, "c", .ready, "<p></p>", .html, none, none⟩ (by decide) (by decide)
  exact ⟨h.2.2.1, h.2.2.2⟩

/-- C10: every element returned by `listPaperDemos` is owned by the caller;
demos of the same paper owned by other users are omitted, not an error. -/
theorem listPaperDemos_owner_only (uid pid : Nat) (table : List Demo)
    (urlOf : Nat → Option String) :
    (∀ x ∈ listPaperDemos uid pid table urlOf, x.1.userId = uid) ∧
    (∀ d : Demo, d.userId ≠ uid → ∀ u : Option String,
      (d, u) ∉ listPaperDemos uid pid table urlOf) := by
  have h1 : ∀ x ∈ listPaperDemos uid pid table urlOf, x.1.userId = uid := by
    intro x hx
    simp only [listPaperDemos, List.mem_map] at hx
    obtain ⟨d, hd, rfl⟩ := hx
    have := (List.mem_filter.mp hd).2
    simpa using this
  exact ⟨h1, fun d hne u hmem => hne (h1 (d, u) hmem)⟩

/-- Witness for C10 at a concrete two-owner table. -/
theorem listPaperDemos_owner_only_witness :
    (demoMine, (none : Option String)).1.userId = 0 ∧
    (demoTheirs, (none : Option String)) ∉
      listPaperDemos 0 5 [demoMine, demoTheirs] (fun _ => none) :=
  ⟨(listPaperDemos_owner_only 0 5 [demoMine, demoTheirs] (fun _ => none)).1
      (demoMine, none) (by decide),
   (listPaperDemos_owner_only 0 5 [demoMine, demoTheirs] (fun _ => none)).2
      demoTheirs (by decide) none⟩

/-- C6: when `extractPdfContent` fails in steps 2-4 (no resolvable blob URL,
or the analysis call throws), the only patch is `status: 'error'`; applying it
changes no other field of the paper, and nothing is scheduled. -/
theorem extractPdfContent_error_frame (p : Paper) (url : Option String)
    (analysis : Except String String)
    (h : url = none ∨ ∃ e, analysis = .error e) :
    (extractPdfContent (some p) url analysis).updates = [paperErrorUpdate] ∧
    (extractPdfContent (some p) url analysis).scheduled = [] ∧
    updatePaper p paperErrorUpdate = { p with status := PStatus.error } := by
  refine ⟨?_, ?_, rfl⟩ <;>
    · rcases h with rfl | ⟨e, rfl⟩
      · rfl
      · cases url <;> rfl

/-- Witness for C6 at a concrete analysis failure. -/
theorem extractPdfContent_error_frame_witness :
    (extractPdfContent (some paperMine) (some "http://u")
        (.error "model unavailable")).updates = [paperErrorUpdate] ∧
    updatePaper paperMine paperErrorUpdate
      = { paperMine with status := PStatus.error } :=
  ⟨(extractPdfContent_error_frame paperMine (some "http://u")
      (.error "model unavailable") (Or.inr ⟨_, rfl⟩)).1,
   (extractPdfContent_error_frame paperMine (some "http://u")
      (.error "model unavailable") (Or.inr ⟨_, rfl⟩)).2.2⟩

/-- C8: a second `ensureUser` call for the same identity returns the same user
id and leaves the users table unchanged — no duplicate row is inserted. -/
theorem ensureUser_idempotent (idn : Identity) (t : UsersTable)
    (r : Nat × UsersTable) (h : ensureUser (some idn) t = .ok r) :
    ensureUser (some idn) r.2 = .ok r := by
  rcases hq : uniqueByWorkosId idn.subject t with e | u?
  · rw [ensureUser, hq] at h
    exact absurd h (by simp)
  · rcases u? with _ | u
    · -- no existing row: a fresh row was inserted
      have hf : t.rows.filter (fun u => u.workosId == idn.subject) = [] := by
        rw [uniqueByWorkosId] at hq
        rcases hfil : t.rows.filter (fun u => u.workosId == idn.subject) with
          _ | ⟨u1, _ | ⟨u2, rest⟩⟩ <;> rw [hfil] at hq <;> simp_all
      rw [ensureUser, hq] at h
      simp only [Except.ok.injEq] at h
      subst h
      rw [ensureUser]
      have hq2 : uniqueByWorkosId idn.subject
          ⟨t.rows ++ [⟨t.nextId, idn.subject, idn.email.getD "",
            idn.name.getD "Unknown User", idn.organizationId⟩], t.nextId + 1⟩
          = .ok (some ⟨t.nextId, idn.subject, idn.email.getD "",
            idn.name.getD "Unknown User", idn.organizationId⟩) := by
        rw [uniqueByWorkosId]
        simp [List.filter_append, hf]
      rw [hq2]
    · -- existing row: both calls return it and leave the table alone
      rw [ensureUser, hq] at h
      simp only [Except.ok.injEq] at h
      subst h
      rw [ensureUser, hq]

/-- Witness for C8: a first call on the empty table, then the second call. -/
theorem ensureUser_idempotent_witness :
    ensureUser (some ⟨"w1", some "e", some "n", none⟩)
        ⟨[⟨0, "w1", "e", "n", none⟩], 1⟩
      = .ok (0, ⟨[⟨0, "w1", "e", "n", none⟩], 1⟩) :=
  ensureUser_idempotent ⟨"w1", some "e", some "n", none⟩ ⟨[], 0⟩
    (0, ⟨[⟨0, "w1", "e", "n", none⟩], 1⟩) (by decide)

/-- C1 (code bug): with a demo present, a successful `daytona.create`, a
successful file write and server start, and a fetch answering a non-success
status, `executeInSandbox` makes one successful create call and zero delete
calls — the sandbox is leaked on the failure path, because `sandbox.delete()`
is only reached at the end of the `try` block. -/
theorem executeInSandbox_fetch_failure_leaks :
    (executeInSandbox (some demoExec) (.ok "sb1") (.ok ()) (.ok ())
        (.ok ⟨false, 500, "Internal Server Error", ""⟩) (.ok 7)
        (.ok ())).createOk = true ∧
    (executeInSandbox (some demoExec) (.ok "sb1") (.ok ()) (.ok ())
        (.ok ⟨false, 500, "Internal Server Error", ""⟩) (.ok 7)
        (.ok ())).deleteCalls = 0 :=
  ⟨rfl, rfl⟩

/-- Counterexample for C3: on a failure after provisioning succeeded
(`create` returned id "sb1", the file write threw), the catch block records
`sandboxId: ''` — not the identifier obtained so far — and the action
re-throws instead of returning normally. -/
theorem executeInSandbox_catch_cex :
    (executeInSandbox (some demoExec) (.ok "sb1") (.error "write failed")
        (.ok ()) (.ok ⟨true, 200, "OK", "<html>ok</html>"⟩) (.ok 7)
        (.ok ())).result ≠ .ok () ∧
    (executeInSandbox (some demoExec) (.ok "sb1") (.error "write failed")
        (.ok ()) (.ok ⟨true, 200, "OK", "<html>ok</html>"⟩) (.ok 7)
        (.ok ())).updates.map (fun u => u.executionResults)
      = [some ⟨"", none, none, none, some ["write failed"]⟩] ∧
    ("" : String) ≠ "sb1" := by
  refine ⟨by decide, rfl, by decide⟩

/-- C3 (amended): whenever `executeInSandbox` throws with the demo present,
the last patch it issued is the `failed` patch carrying an empty sandbox id
and the error message as a one-element error list; the exception is then
re-raised (the result is the error, not a normal return). -/
theorem executeInSandbox_failure_recording (d : Demo)
    (createR : Except String String) (wR sR : Except String Unit)
    (fR : Except String FetchResp) (stR : Except String Nat)
    (dR : Except String Unit) (e : String)
    (h : (executeInSandbox (some d) createR wR sR fR stR dR).result
      = .error e) :
    (executeInSandbox (some d) createR wR sR fR stR dR).updates.getLast?
      = some (sandboxFailedUpdate e) := by
  rcases createR with e1 | sid
  · have he : e1 = e := by simpa [executeInSandbox] using h
    subst he; rfl
  rcases wR with e2 | w
  · have he : e2 = e := by simpa [executeInSandbox] using h
    subst he; rfl
  rcases sR with e3 | s
  · have he : e3 = e := by simpa [executeInSandbox] using h
    subst he; rfl
  rcases fR with e4 | resp
  · have he : e4 = e := by simpa [executeInSandbox] using h
    subst he; rfl
  obtain ⟨fok, fst, ftxt, fbody⟩ := resp
  cases fok
  · have he : "Failed to fetch demo: " ++ toString fst ++ " " ++ ftxt = e := by
      simpa [executeInSandbox] using h
    subst he; rfl
  · rcases stR with e5 | blob
    · have he : e5 = e := by simpa [executeInSandbox] using h
      subst he; rfl
    rcases dR with e6 | del
    · have he : e6 = e := by simpa [executeInSandbox] using h
      subst he; rfl
    · exact absurd h (by simp [executeInSandbox])

/-- Witness for C3 at a concrete fetch network failure. -/
theorem executeInSandbox_failure_recording_witness :
    (executeInSandbox (some demoExec) (.ok "sb1") (.ok ()) (.ok ())
        (.error "network unreachable") (.ok 7) (.ok ())).updates.getLast?
      = some (sandboxFailedUpdate "network unreachable") :=
  executeInSandbox_failure_recording demoExec (.ok "sb1") (.ok ()) (.ok ())
    (.error "network unreachable") (.ok 7) (.ok ()) "network unreachable" rfl

/-- Every patch `executeInSandbox` issues leaves `generatedCode` untouched. -/
theorem execUpdates_generatedCode_none (dm : Option Demo)
    (createR : Except String String) (wR sR : Except String Unit)
    (fR : Except String FetchResp) (stR : Except String Nat)
    (dR : Except String Unit) :
    ∀ u ∈ (executeInSandbox dm createR wR sR fR stR dR).updates,
      u.generatedCode = none := by
  intro u hu
  rcases dm with _ | d
  · simp [executeInSandbox] at hu
  rcases createR with e1 | sid
  · simp [executeInSandbox] at hu; subst hu; rfl
  rcases wR with e2 | w
  · simp [executeInSandbox] at hu; subst hu; rfl
  rcases sR with e3 | s
  · simp [executeInSandbox] at hu; subst hu; rfl
  rcases fR with e4 | resp
  · simp [executeInSandbox] at hu; subst hu; rfl
  obtain ⟨fok, fst, ftxt, fbody⟩ := resp
  cases fok
  · simp [executeInSandbox] at hu; subst hu; rfl
  · rcases stR with e5 | blob
    · simp [executeInSandbox] at hu; subst hu; rfl
    rcases dR with e6 | del
    · simp [executeInSandbox] at hu
      rcases hu with hu | hu <;> subst hu <;> rfl
    · simp [executeInSandbox] at hu; subst hu; rfl

/-- Folding patches that leave `generatedCode` untouched preserves it. -/
theorem foldl_updateDemo_generatedCode (us : List DemoUpdate) :
    ∀ d : Demo, (∀ u ∈ us, u.generatedCode = none) →
      (us.foldl updateDemo d).generatedCode = d.generatedCode := by
  induction us with
  | nil => intro d _; rfl
  | cons u us ih =>
    intro d h
    have hu : u.generatedCode = none := h u (by simp)
    have hstep : (updateDemo d u).generatedCode = d.generatedCode := by
      simp [updateDemo, hu]
    simp only [List.foldl_cons]
    rw [ih (updateDemo d u) (fun v hv => h v (by simp [hv])), hstep]

/-- Counterexample for C5: when the model call of `generateDemo` throws, the
demo is patched to `failed` without ever receiving generated code, so a
reachable record has advanced past `generating` with `generatedCode = ""`. -/
theorem demoReach_failed_empty_code_cex :
    DemoReach 0 1 2 paperMine "attention" (.error "model down") demoFailedGen ∧
    demoFailedGen.status ≠ DStatus.generating ∧
    demoFailedGen.generatedCode = "" :=
  ⟨.generated demoFailedGen (by decide), by decide, rfl⟩

/-- C5 (amended): provided the cleaned model output is non-empty, every
reachable demo record whose status is `executing` or `ready` has non-empty
`generatedCode`; records that jumped to `failed` from the generation stage may
keep the empty initial code. -/
theorem demoReach_code_nonempty (uid pid did : Nat) (p : Paper)
    (concept text : String) (d : Demo) (hne : cleanHtml text ≠ "")
    (hr : DemoReach uid pid did p concept (.ok text) d)
    (hs : d.status = DStatus.executing ∨ d.status = DStatus.ready) :
    d.generatedCode ≠ "" := by
  revert hs
  induction hr with
  | created =>
    intro hs
    rcases hs with h | h <;> simp [initialDemo] at h
  | generated d hd =>
    intro hs
    by_cases hu : p.userId = uid
    · simp only [generateDemo, hu, if_true] at hd
      simp only [Option.some.injEq] at hd
      subst hd
      simpa [updateDemo, initialDemo] using hne
    · simp [generateDemo, hu] at hd
  | executed d cR wR sR fR stR dR hreach hstat ih =>
    intro _
    have hcode := foldl_updateDemo_generatedCode
      (executeInSandbox (some d) cR wR sR fR stR dR).updates d
      (fun u hu => execUpdates_generatedCode_none (some d) cR wR sR fR stR dR u hu)
    rw [hcode]
    exact ih (Or.inl hstat)

/-- Witness for C5 at a concrete successful generation. -/
theorem demoReach_code_nonempty_witness : demoExecOk.generatedCode ≠ "" :=
  demoReach_code_nonempty 0 1 2 paperMine "attention" "<!DOCTYPE html><p>hi</p>"
    demoExecOk (by decide) (.generated demoExecOk (by decide))
    (Or.inl (by decide))

/-- Counterexample for C4: `rawEmbedded` is not itself parseable as JSON, yet
`extractPdfContent` extracts the embedded brace-delimited object, so the
`ready` patch carries `extractedContent = "inner"` — not the entire raw
response — and non-empty `metadata.authors`. -/
theorem extractPdfContent_embedded_json_cex :
    jsonParseChars rawEmbedded.data = none ∧
    (extractPdfContent (some paperMine) (some "http://u")
        (.ok rawEmbedded)).updates
      = [⟨some .ready, some "inner", some ⟨some ["A", "B"], none, none⟩,
          some "http://u"⟩] ∧
    some "inner" ≠ some rawEmbedded ∧
    (⟨some ["A", "B"], none, none⟩ : PaperMetadata) ≠ ⟨none, none, none⟩ :=
  ⟨rfl, rfl, by decide, by decide⟩

/-- C4 (amended): whenever the lenient extraction fails as a whole — the
response contains no brace-delimited substring, or that substring is not
valid JSON — `extractPdfContent` patches the paper to `ready` with
`extractedContent` equal to the entire raw response and empty metadata
fields; such a response never yields `status: 'error'`. -/
theorem extractPdfContent_fallback_raw (p : Paper) (u text : String)
    (h : braceMatch text.data = none ∨
      ∃ m, braceMatch text.data = some m ∧ jsonParseChars m = none) :
    (extractPdfContent (some p) (some u) (.ok text)).updates
      = [⟨some .ready, some text, some ⟨none, none, none⟩, some u⟩] := by
  have hpa : parseAnalysis text = .jobj [("content", .jstr text)] := by
    rcases h with h | ⟨m, hm, hp⟩ <;> simp [parseAnalysis, *]
  simp only [extractPdfContent, buildReadyUpdate, hpa]
  rfl

/-- Witness for C4 at the plain-text response of end-to-end scenario B. -/
theorem extractPdfContent_fallback_raw_witness :
    (extractPdfContent (some paperMine) (some "http://u")
        (.ok "hello world")).updates
      = [⟨some .ready, some "hello world", some ⟨none, none, none⟩,
          some "http://u"⟩] :=
  extractPdfContent_fallback_raw paperMine "http://u" "hello world"
    (Or.inl rfl)

/-! ### Lemmas about the fence-stripping scan (for C7) -/

/-- Scanning the empty list removes nothing, for any fuel. -/
theorem stripOccF_nil (pat : List Char) (f : Nat) : stripOccF pat f [] = [] := by
  cases f <;> rfl

/-- A pattern starting with `p` is no prefix of a list starting with `c ≠ p`. -/
theorem isPrefixOf_cons_ne (p c : Char) (ps cs : List Char) (h : ¬ c = p) :
    (p :: ps).isPrefixOf (c :: cs) = false := by
  simp [List.isPrefixOf]
  exact fun h2 => absurd h2.symm h

/-- The scan copies a head character that cannot start a match. -/
theorem stripOccF_cons_ne (p c : Char) (ps cs : List Char) (f : Nat)
    (h : ¬ c = p) :
    stripOccF (p :: ps) (f + 1) (c :: cs) = c :: stripOccF (p :: ps) f cs := by
  simp [stripOccF, isPrefixOf_cons_ne p c ps cs h]

/-- One match step of the scan. -/
theorem stripOccF_match_step (pat l : List Char) (f : Nat) (hne : l ≠ [])
    (hp : pat.isPrefixOf l = true) :
    stripOccF pat (f + 1) l = stripOccF pat f (dropNl (l.drop pat.length)) := by
  cases l with
  | nil => exact absurd rfl hne
  | cons c cs => simp [stripOccF, hp]

/-- A list in which the pattern matches at no position passes through the
scan unchanged, for any fuel. -/
theorem stripOccF_no_match (pat : List Char) :
    ∀ (l : List Char) (f : Nat),
      (∀ t, t <:+ l → pat.isPrefixOf t = false) → stripOccF pat f l = l := by
  intro l
  induction l with
  | nil => intro f _; exact stripOccF_nil pat f
  | cons c cs ih =>
    intro f h
    cases f with
    | zero => rfl
    | succ g =>
      have hc : pat.isPrefixOf (c :: cs) = false := h (c :: cs) (List.suffix_refl _)
      calc stripOccF pat (g + 1) (c :: cs)
          = c :: stripOccF pat g cs := by simp [stripOccF, hc]
        _ = c :: cs := by
            rw [ih g (fun t ht => h t (ht.trans (List.suffix_cons c cs)))]

/-- `"```html"` matches at no position of a backtick-free list followed by
the closing fence `"\n```"`. -/
theorem no_occ7 (m : List Char) (hm : btick ∉ m) :
    ∀ t, t <:+ m ++ ('\n' :: fence3L) → fence7L.isPrefixOf t = false := by
  induction m with
  | nil =>
    intro t ht
    simp only [List.nil_append, fence3L] at ht
    rcases List.suffix_cons_iff.mp ht with rfl | ht
    · decide
    rcases List.suffix_cons_iff.mp ht with rfl | ht
    · decide
    rcases List.suffix_cons_iff.mp ht with rfl | ht
    · decide
    rcases List.suffix_cons_iff.mp ht with rfl | ht
    · decide
    rw [List.suffix_nil.mp ht]
    decide
  | cons a m2 ih =>
    intro t ht
    have ha : ¬ a = btick := fun h2 => hm (by simp [h2])
    simp only [List.cons_append] at ht
    rcases List.suffix_cons_iff.mp ht with rfl | ht2
    · have h7 : fence7L = btick :: [btick, btick, 'h', 't', 'm', 'l'] := by decide
      rw [h7]
      exact isPrefixOf_cons_ne btick a _ _ ha
    · exact ih (fun h2 => hm (List.mem_cons_of_mem a h2)) t ht2

/-- The `"```html"` pass leaves a backtick-free body and the closing fence
unchanged. -/
theorem strip7_keeps (m : List Char) (hm : btick ∉ m) (f : Nat) :
    stripOccF fence7L f (m ++ ('\n' :: fence3L)) = m ++ ('\n' :: fence3L) :=
  stripOccF_no_match fence7L _ f (no_occ7 m hm)

/-- Base case of the `"```"` pass: the closing fence is removed. -/
theorem strip3_base (g : Nat) :
    stripOccF fence3L (g + 2) ('\n' :: fence3L) = ['\n'] := by
  have h1 : stripOccF fence3L (g + 2) ('\n' :: fence3L)
      = '\n' :: stripOccF fence3L (g + 1) fence3L := by
    have h3 : fence3L = btick :: [btick, btick] := by decide
    rw [h3]
    exact stripOccF_cons_ne btick '\n' [btick, btick] (btick :: [btick, btick])
      (g + 1) (by decide)
  rw [h1]
  have h2 : stripOccF fence3L (g + 1) fence3L = [] := by
    have hp : fence3L.isPrefixOf fence3L = true := by decide
    rw [stripOccF_match_step fence3L fence3L g (by decide) hp]
    have hd : dropNl (fence3L.drop fence3L.length) = [] := by decide
    rw [hd, stripOccF_nil]
  rw [h2]

/-- The `"```"` pass over a backtick-free body removes exactly the closing
fence, leaving the body and its trailing newline. -/
theorem strip3_removes (m : List Char) :
    ∀ f, btick ∉ m → m.length + 2 ≤ f →
      stripOccF fence3L f (m ++ ('\n' :: fence3L)) = m ++ ['\n'] := by
  induction m with
  | nil =>
    intro f _ hf
    obtain ⟨g, rfl⟩ : ∃ g, f = g + 2 := ⟨f - 2, by omega⟩
    simpa using strip3_base g
  | cons a m2 ih =>
    intro f hm hf
    have ha : ¬ a = btick := fun h2 => hm (by simp [h2])
    obtain ⟨g, rfl⟩ : ∃ g, f = g + 1 := ⟨f - 1, by omega⟩
    have h3 : fence3L = btick :: [btick, btick] := by decide
    calc stripOccF fence3L (g + 1) ((a :: m2) ++ ('\n' :: fence3L))
        = a :: stripOccF fence3L g (m2 ++ ('\n' :: fence3L)) := by
          rw [List.cons_append, h3]
          exact stripOccF_cons_ne btick a [btick, btick] _ g ha
      _ = a :: (m2 ++ ['\n']) := by
          rw [ih g (fun h2 => hm (List.mem_cons_of_mem a h2)) (by simp at hf; omega)]
      _ = (a :: m2) ++ ['\n'] := by simp

/-- `trim` is the identity on a list with non-whitespace first and last
characters. -/
theorem jsTrim_no_ws_ends (x y : Char) (M : List Char)
    (hx : x.isWhitespace = false) (hy : y.isWhitespace = false) :
    jsTrim (x :: (M ++ [y])) = x :: (M ++ [y]) := by
  unfold jsTrim
  have h1 : (x :: (M ++ [y])).dropWhile Char.isWhitespace = x :: (M ++ [y]) := by
    simp [List.dropWhile_cons, hx]
  rw [h1]
  have h2 : (x :: (M ++ [y])).reverse = y :: (M.reverse ++ [x]) := by
    simp
  rw [h2]
  have h3 : (y :: (M.reverse ++ [x])).dropWhile Char.isWhitespace
      = y :: (M.reverse ++ [x]) := by
    simp [List.dropWhile_cons, hy]
  rw [h3, ← h2, List.reverse_reverse]

/-- A prefix of `b` is a prefix of `b ++ d`. -/
theorem isPrefixOf_append_ext (a b d : List Char) (h : a.isPrefixOf b = true) :
    a.isPrefixOf (b ++ d) = true := by
  rw [ List.isPrefixOf_iff_prefix] at h ⊢
  exact h.trans (b.prefix_append d)

/-- C7: a model response consisting of backtick-free demo markup wrapped in
triple-backtick fences labelled `html` is persisted with the fences stripped:
the stored code is the markup itself (plus the newline that preceded the
closing fence) and begins with the `<!DOCTYPE html>` sentinel. -/
theorem cleanHtml_strips_fences (c : String) (hb : btick ∉ c.data)
    (hdoc : ("<!DOCTYPE html>".data).isPrefixOf c.data = true) :
    cleanHtml ("```html\n" ++ c ++ "\n```") = c ++ "\n" ∧
    ("<!DOCTYPE html>".data).isPrefixOf
      (cleanHtml ("```html\n" ++ c ++ "\n```")).data = true := by
  have hdata : ("```html\n" ++ c ++ "\n```").data
      = (fence7L ++ ['\n']) ++ (c.data ++ ('\n' :: fence3L)) := by
    have h1 : ("```html\n" ++ c ++ "\n```").data
        = "```html\n".data ++ c.data ++ "\n```".data := rfl
    have h2 : "```html\n".data = fence7L ++ ['\n'] := by decide
    have h3 : "\n```".data = '\n' :: fence3L := by decide
    rw [h1, h2, h3, List.append_assoc]
  have hshape : (fence7L ++ ['\n']) ++ (c.data ++ ('\n' :: fence3L))
      = btick :: ((btick :: btick :: 'h' :: 't' :: 'm' :: 'l' :: '\n' ::
          (c.data ++ ['\n', btick, btick])) ++ [btick]) := by
    simp [fence7L, fence3L]
  have htrim : jsTrim ((fence7L ++ ['\n']) ++ (c.data ++ ('\n' :: fence3L)))
      = (fence7L ++ ['\n']) ++ (c.data ++ ('\n' :: fence3L)) := by
    rw [hshape]
    exact jsTrim_no_ws_ends btick btick _ (by decide) (by decide)
  have hLassoc : (fence7L ++ ['\n']) ++ (c.data ++ ('\n' :: fence3L))
      = fence7L ++ (['\n'] ++ (c.data ++ ('\n' :: fence3L))) := by
    simp
  have hpref : ("```".data).isPrefixOf
      ((fence7L ++ ['\n']) ++ (c.data ++ ('\n' :: fence3L))) = true := by
    have h3d : "```".data = fence3L := by decide
    have hsplit : (fence7L ++ ['\n']) ++ (c.data ++ ('\n' :: fence3L))
        = fence3L ++ (['h', 't', 'm', 'l', '\n'] ++ (c.data ++ ('\n' :: fence3L))) := by
      simp [fence7L, fence3L]
    rw [h3d, hsplit]
    simp
  have hphase1 : stripOcc ("```html".data)
      ((fence7L ++ ['\n']) ++ (c.data ++ ('\n' :: fence3L)))
      = c.data ++ ('\n' :: fence3L) := by
    have h7d : "```html".data = fence7L := by decide
    have hlen : ((fence7L ++ ['\n']) ++ (c.data ++ ('\n' :: fence3L))).length
        = (c.data.length + 11) + 1 := by
      simp [fence7L, fence3L]
    have hne : (fence7L ++ ['\n']) ++ (c.data ++ ('\n' :: fence3L)) ≠ [] := by
      simp [fence7L]
    have hp7 : fence7L.isPrefixOf
        ((fence7L ++ ['\n']) ++ (c.data ++ ('\n' :: fence3L))) = true := by
      rw [hLassoc]
      simp
    have hdrop : dropNl (((fence7L ++ ['\n']) ++
        (c.data ++ ('\n' :: fence3L))).drop fence7L.length)
        = c.data ++ ('\n' :: fence3L) := by
      rw [hLassoc, List.drop_left]
      simp [dropNl]
    rw [h7d, stripOcc, hlen, stripOccF_match_step fence7L _ _ hne hp7, hdrop]
    exact strip7_keeps c.data hb _
  have hphase2 : stripOcc ("```".data) (c.data ++ ('\n' :: fence3L))
      = c.data ++ ['\n'] := by
    have h3d : "```".data = fence3L := by decide
    have hlen2 : (c.data ++ ('\n' :: fence3L)).length = c.data.length + 4 := by
      simp [fence3L]
    rw [h3d, stripOcc, hlen2]
    exact strip3_removes c.data (c.data.length + 4) hb (by omega)
  have hclean : cleanChars (("```html\n" ++ c ++ "\n```").data)
      = c.data ++ ['\n'] := by
    rw [hdata]
    simp only [cleanChars]
    rw [htrim, hpref]
    simp only [if_true]
    rw [hphase1, hphase2]
  constructor
  · show (⟨cleanChars (("```html\n" ++ c ++ "\n```").data)⟩ : String) = c ++ "\n"
    rw [hclean]
    obtain ⟨l⟩ := c
    rfl
  · show ("<!DOCTYPE html>".data).isPrefixOf
        (cleanChars (("```html\n" ++ c ++ "\n```").data)) = true
    rw [hclean]
    exact isPrefixOf_append_ext _ c.data ['\n'] hdoc

/-- Witness for C7 at a concrete fenced response. -/
theorem cleanHtml_strips_fences_witness :
    cleanHtml ("```html\n" ++ "<!DOCTYPE html><p>hi</p>" ++ "\n```")
      = "<!DOCTYPE html><p>hi</p>" ++ "\n" ∧
    ("<!DOCTYPE html>".data).isPrefixOf
      (cleanHtml ("```html\n" ++ "<!DOCTYPE html><p>hi</p>" ++ "\n```")).data
      = true :=
  cleanHtml_strips_fences "<!DOCTYPE html><p>hi</p>" (by decide) (by decide)

end Eli5
